import Mathlib

/-!
Verification of the MadMax/Vandal core (lattice.py, memtypes.py, tac_cfg.py)
against its natural-language specification.

The Python sources are shallowly embedded:
* Python integers become Lean `Int`; Python `//` is `Int.fdiv`, `%` is `Int.fmod`,
  `&` is `Int.land`, `|` is `Int.lor`, `~` is `Int.lnot` (all of which agree with
  Python's semantics on the full integer ring).
* A Python `set` of integers becomes a `Finset Int`; iteration over a set is
  modelled by `Finset.sort`, which fixes a canonical order (set-iteration order
  is arbitrary in Python; no embedded claim depends on it).
* Exceptions (`TypeError` raised by `SubsetLatticeElement.__iter__`, keyword
  mismatches at call sites) are modelled with `Except`/`Option` results.
* Mutation becomes explicit state passing.
-/

set_option maxRecDepth 1000000

namespace MadMax

/-- Python errors raised by the embedded code. -/
inductive PyErr where
  | typeError
deriving DecidableEq, Repr

/-! ## lattice.py: SubsetLatticeElement

The top element is the complete (never materialised) set; every other element
is a finite set of integers, the empty set being bottom. -/

/-- A SubsetLatticeElement: `top` is the Top symbol, `elems s` is a concrete
finite set of integers (lattice.py, class SubsetLatticeElement). -/
inductive SubsetLatticeElement where
  | top : SubsetLatticeElement
  | elems : Finset Int → SubsetLatticeElement
deriving DecidableEq

namespace SubsetLatticeElement

/-- Property is_top of a BoundedLatticeElement: the value equals the Top value. -/
def is_top : SubsetLatticeElement → Bool
  | .top => true
  | .elems _ => false

/-- Property is_bottom: the value equals the Bottom value, the empty set. -/
def is_bottom : SubsetLatticeElement → Bool
  | .top => false
  | .elems s => s = (∅ : Finset Int)

/-- Method __len__ of SubsetLatticeElement: Top reports length 0, a concrete
set reports its cardinality. -/
def len : SubsetLatticeElement → Nat
  | .top => 0
  | .elems s => s.card

/-- Method __iter__ of SubsetLatticeElement: raises TypeError whenever the
length is 0 (which holds for Top and for the empty set); otherwise yields the
members, here in the canonical sorted order. -/
def iterList : SubsetLatticeElement → Except PyErr (List Int)
  | .top => .error .typeError
  | .elems s => if s.card = 0 then .error .typeError else .ok (s.sort (· ≤ ·))

end SubsetLatticeElement

/-! ## memtypes.py: Variable -/

/-- Variables are 32 bytes in size (memtypes.Variable.SIZE). -/
def SIZE : Nat := 32

/-- The number of distinct values a Variable could contain: 2^(SIZE*8)
(memtypes.Variable.CARDINALITY). -/
def CARDINALITY : Int := 2 ^ (SIZE * 8)

/-- A Variable from memtypes.py: a SubsetLatticeElement over the 2^256 integer
ring carrying a name.  The subclass MetaVariable additionally carries an
integer payload; it is modelled by `payload = some n` (plain Variables have
`payload = none`). -/
structure Variable where
  value : SubsetLatticeElement
  name : String
  payload : Option Nat := none
deriving DecidableEq

namespace Variable

/-- Variable construction from an iterable of integers (memtypes.Variable.__init__):
every input value is reduced modulo CARDINALITY, then stored as a set. -/
def init (values : List Int) (name : String := "Var") : Variable :=
  { value := .elems ((values.map (fun v => v.fmod CARDINALITY)).toFinset), name := name }

/-- Variable construction from a set of integers, as performed by
SubsetLatticeElement.meet/join when `cls` is Variable: the constructor reduces
each member modulo CARDINALITY. -/
def ofValues (s : Finset Int) (name : String := "Var") : Variable :=
  { value := .elems (s.image (fun v => v.fmod CARDINALITY)), name := name }

/-- Classmethod Variable.top: a Variable whose value is the Top element
(memtypes.py lines 139-149; its only keyword parameter is `name`). -/
def top (name : String := "Var") : Variable :=
  { value := .top, name := name }

/-- Classmethod Variable.bottom: a Variable holding the Bottom (empty set) value. -/
def bottom (name : String := "Var") : Variable :=
  { value := .elems ∅, name := name }

/-- Property is_unconstrained: the value set is Top. -/
def is_unconstrained (v : Variable) : Bool := v.value.is_top

/-- Property is_bottom lifted to Variable. -/
def is_bottom (v : Variable) : Bool := v.value.is_bottom

/-- Property is_true: neither Top nor Bottom, and all members are nonzero. -/
def is_true (v : Variable) : Bool :=
  if v.is_unconstrained || v.is_bottom then false
  else match v.value with
    | .top => false
    | .elems s => decide (∀ c ∈ s, c ≠ 0)

/-- Property is_false: neither Top nor Bottom, and all members are zero. -/
def is_false (v : Variable) : Bool :=
  if v.is_unconstrained || v.is_bottom then false
  else match v.value with
    | .top => false
    | .elems s => decide (∀ c ∈ s, c = 0)

/-- Python __eq__ of Variable compares only the value sets; names and payloads
are ignored (memtypes.py lines 129-130). -/
def pyEq (a b : Variable) : Bool := a.value == b.value

/-- Constructor invariant of Variable (memtypes.py line 64): every concrete
member of the value set is stored reduced modulo CARDINALITY.  Every Variable
the Python code ever builds satisfies this. -/
def canonical (v : Variable) : Bool :=
  match v.value with
  | .top => true
  | .elems s => decide (∀ x ∈ s, x.fmod CARDINALITY = x)

/-- SubsetLatticeElement.meet with `cls = Variable`: Top is the identity, and
otherwise the set intersection is passed through the Variable constructor
(which reduces modulo CARDINALITY). -/
def meet (a b : Variable) : Variable :=
  if a.value.is_top then b
  else if b.value.is_top then a
  else match a.value, b.value with
    | .elems x, .elems y => Variable.ofValues (x ∩ y)
    | _, _ => a

/-- SubsetLatticeElement.join with `cls = Variable`: if either argument is Top
the result is Variable.top(); otherwise the set union is passed through the
Variable constructor. -/
def join (a b : Variable) : Variable :=
  if a.value.is_top || b.value.is_top then Variable.top
  else match a.value, b.value with
    | .elems x, .elems y => Variable.ofValues (x ∪ y)
    | _, _ => a

/-- Classmethod Variable.twos_comp: the signed two's-complement reading of an
integer, `v - CARDINALITY` when the half-range bit `CARDINALITY >> 1` is set. -/
def twos_comp (v : Int) : Int :=
  if Int.land v (CARDINALITY >>> 1) ≠ 0 then v - CARDINALITY else v

/-- EVM ADD (memtypes.py). -/
def ADD (l r : Int) : Int := l + r

/-- EVM MUL (memtypes.py). -/
def MUL (l r : Int) : Int := l * r

/-- EVM SUB (memtypes.py). -/
def SUB (l r : Int) : Int := l - r

/-- EVM DIV (memtypes.py): quotient, 0 when the divisor is 0. -/
def DIV (l r : Int) : Int := if r = 0 then 0 else Int.fdiv l r

/-- EVM SDIV (memtypes.py): signed quotient via two's-complement readings;
the sign is taken from the product of the operands, and 0 when the signed
divisor is 0. -/
def SDIV (l r : Int) : Int :=
  let l_val := twos_comp l
  let r_val := twos_comp r
  let sign : Int := if 0 ≤ l_val * r_val then 1 else -1
  if r_val = 0 then 0 else sign * (Int.fdiv |l_val| |r_val|)

/-- EVM MOD (memtypes.py): modulo, 0 when the modulus is 0. -/
def MOD (v m : Int) : Int := if m = 0 then 0 else Int.fmod v m

/-- EVM SMOD (memtypes.py): signed modulo via two's-complement readings; the
output takes the sign of the dividend, and is 0 when the raw modulus is 0. -/
def SMOD (v m : Int) : Int :=
  let v_val := twos_comp v
  let m_val := twos_comp m
  let sign : Int := if 0 ≤ v_val then 1 else -1
  if m = 0 then 0 else sign * (Int.fmod |v_val| |m_val|)

/-- EVM SIGNEXTEND as written in memtypes.py lines 256-266.  The mask is the
integer denoted by the binary string of (SIZE*8 - pos) ones followed by pos
zeros (Python string repetition with a non-positive count is empty, matching
truncating Nat subtraction), and the code returns `v & mask` when the tested
bit is clear and `v | ~mask` when it is set. -/
def SIGNEXTEND (b v : Nat) : Int :=
  let pos : Nat := 8 * (b + 1)
  let mask : Nat := (2 ^ (SIZE * 8 - pos) - 1) * 2 ^ pos
  let val : Nat := if Nat.land v (1 <<< (pos - 1)) > 0 then 1 else 0
  if val = 0 then (Nat.land v mask : Int)
  else Int.lor (v : Int) (Int.lnot (mask : Int))

/-- EVM BYTE as written in memtypes.py lines 318-321:
return (v >> ((SIZE - b)*8)) & 0xFF. -/
def BYTE (b v : Nat) : Nat := Nat.land (v >>> ((SIZE - b) * 8)) 0xFF

end Variable

/-- MetaVariable construction (memtypes.MetaVariable.__init__): value Top,
the given name, and the given integer payload. -/
def MetaVariable.init (name : String) (payload : Nat) : Variable :=
  { value := .top, name := name, payload := some payload }

/-! ## Arithmetic lemmas for the SDIV/SMOD claims -/

/-- Negating the dividend negates the truncated remainder. -/
lemma neg_tmod_lemma (a b : Int) : (-a).tmod b = -(a.tmod b) := by
  have h1 := Int.tmod_add_tdiv (-a) b
  have h2 := Int.tmod_add_tdiv a b
  rw [Int.neg_tdiv] at h1
  linarith

/-- The sign-times-magnitude form computed by Variable.SDIV coincides with
truncated integer division. -/
lemma sign_abs_fdiv_eq_tdiv (a b : Int) (hb : b ≠ 0) :
    (if 0 ≤ a * b then (1 : Int) else -1) * (Int.fdiv |a| |b|) = a.tdiv b := by
  rw [Int.fdiv_eq_tdiv (abs_nonneg a) (abs_nonneg b)]
  rcases le_or_lt 0 a with ha | ha
  · rcases lt_or_le 0 b with hbp | hbn
    · rw [if_pos (mul_nonneg ha hbp.le), abs_of_nonneg ha, abs_of_nonneg hbp.le, one_mul]
    · have hbneg : b < 0 := lt_of_le_of_ne hbn hb
      rcases eq_or_lt_of_le ha with ha0 | hapos
      · rw [← ha0]
        simp
      · rw [if_neg (by nlinarith), abs_of_nonneg ha, abs_of_neg hbneg, Int.tdiv_neg]
        ring
  · rcases lt_or_le 0 b with hbp | hbn
    · rw [if_neg (by nlinarith), abs_of_neg ha, abs_of_nonneg hbp.le, Int.neg_tdiv]
      ring
    · have hbneg : b < 0 := lt_of_le_of_ne hbn hb
      rw [if_pos (by nlinarith), abs_of_neg ha, abs_of_neg hbneg, Int.neg_tdiv_neg, one_mul]

/-- The sign-times-magnitude form computed by Variable.SMOD coincides with
the truncated remainder, whose sign follows the dividend. -/
lemma sign_abs_fmod_eq_tmod (a b : Int) :
    (if 0 ≤ a then (1 : Int) else -1) * (Int.fmod |a| |b|) = a.tmod b := by
  rw [Int.fmod_eq_tmod (abs_nonneg a) (abs_nonneg b)]
  have habs : ∀ c : Int, c.tmod |b| = c.tmod b := by
    intro c
    rcases le_or_lt 0 b with hbp | hbn
    · rw [abs_of_nonneg hbp]
    · rw [abs_of_neg hbn, Int.tmod_neg]
  rcases le_or_lt 0 a with ha | ha
  · rw [if_pos ha, abs_of_nonneg ha, habs, one_mul]
  · rw [if_neg (not_le.mpr ha), abs_of_neg ha, neg_tmod_lemma, habs]
    ring

/-- In the two's-complement reading, a value in (0, CARDINALITY) is nonzero. -/
lemma twos_comp_ne_zero {y : Int} (hy0 : 0 ≤ y) (hyC : y < CARDINALITY)
    (hy : y ≠ 0) : Variable.twos_comp y ≠ 0 := by
  unfold Variable.twos_comp
  split <;> omega

/-! ## C3: division and modulus semantics -/

/-- C3 (confirmed).  For every x, y in [0, 2^256): division and modulus by
zero yield 0 and never fail, DIV(x,0) = MOD(x,0) = SDIV(x,0) = SMOD(x,0) = 0;
and on nonzero divisors SDIV and SMOD agree with two's-complement truncated
signed division and remainder (Int.tdiv / Int.tmod of the twos_comp readings),
SMOD's sign following the dividend. -/
theorem C3_div_mod_by_zero_and_signed_semantics :
    ∀ x y : Int, 0 ≤ x → x < CARDINALITY → 0 ≤ y → y < CARDINALITY →
      (Variable.DIV x 0 = 0 ∧ Variable.MOD x 0 = 0 ∧
       Variable.SDIV x 0 = 0 ∧ Variable.SMOD x 0 = 0) ∧
      (y ≠ 0 →
        Variable.SDIV x y = (Variable.twos_comp x).tdiv (Variable.twos_comp y) ∧
        Variable.SMOD x y = (Variable.twos_comp x).tmod (Variable.twos_comp y)) := by
  intro x y _ _ hy0 hyC
  have htc0 : Variable.twos_comp 0 = 0 := by decide
  refine ⟨⟨rfl, rfl, ?_, rfl⟩, ?_⟩
  · unfold Variable.SDIV
    simp [htc0]
  · intro hy
    have hr : Variable.twos_comp y ≠ 0 := twos_comp_ne_zero hy0 hyC hy
    constructor
    · unfold Variable.SDIV
      simp only [if_neg hr]
      exact sign_abs_fdiv_eq_tdiv _ _ hr
    · unfold Variable.SMOD
      simp only [if_neg hy]
      exact sign_abs_fmod_eq_tmod _ _

/-- Witness for C3 at x = 7, y = 5 (and the zero-divisor cases at x = 7). -/
theorem C3_witness :
    (Variable.DIV 7 0 = 0 ∧ Variable.MOD 7 0 = 0 ∧
     Variable.SDIV 7 0 = 0 ∧ Variable.SMOD 7 0 = 0) ∧
    (Variable.SDIV 7 5 = (Variable.twos_comp 7).tdiv (Variable.twos_comp 5) ∧
     Variable.SMOD 7 5 = (Variable.twos_comp 7).tmod (Variable.twos_comp 5)) :=
  ⟨(C3_div_mod_by_zero_and_signed_semantics 7 5 (by decide) (by decide)
      (by decide) (by decide)).1,
   (C3_div_mod_by_zero_and_signed_semantics 7 5 (by decide) (by decide)
      (by decide) (by decide)).2 (by decide)⟩

/-! ## C2: SIGNEXTEND at byte index at least 31

The claim states SIGNEXTEND(b, v) = v for b at least 31.  The code at
memtypes.py lines 256-266 returns `v & mask` when the sign bit is clear and
`v | ~mask` when it is set, where mask has ones only ABOVE bit position
8*(b+1); for b = 31 the mask is 0, so the function returns 0 (sign clear) or
-1 (sign set) instead of v.  This contradicts the function's own docstring
("Return v, but with the high bit of its b'th byte extended..."), the spec,
and EVM semantics, so the code is the slip: the two mask branches are
swapped (`v & mask` / `v | ~mask` instead of `v & ~mask` / `v | mask`). -/

set_option maxRecDepth 100000 in
/-- C2 (code_bug).  Evaluating the code at the failing input b = 31, v = 1:
the claim requires the result 1, but memtypes.Variable.SIGNEXTEND returns 0. -/
theorem C2_signextend_code_eval :
    Variable.SIGNEXTEND 31 1 = 0 ∧ (0 : Int) ≠ 1 := by
  constructor
  · decide
  · decide

/-! ## C4: BYTE extraction

The claim states BYTE(b, v) is the b-th most-significant byte (b = 0 the most
significant).  The code at memtypes.py lines 318-321 shifts by (SIZE - b)*8
instead of (SIZE - b - 1)*8, so BYTE(0, v) = (v >> 256) & 0xFF = 0 for every
v < 2^256, which is constant and cannot be any byte of v; the shift is an
off-by-one slip against the spec and EVM semantics. -/

set_option maxRecDepth 100000 in
/-- C4 (code_bug).  Evaluating the code at the failing input b = 0,
v = 2^248 (most significant byte 1): the claim requires 1, but
memtypes.Variable.BYTE returns 0. -/
theorem C4_byte_code_eval :
    Variable.BYTE 0 (2 ^ 248) = 0 ∧ (0 : Nat) ≠ 1 := by
  constructor
  · decide
  · decide

/-! ## memtypes.py: VariableStack

The Python list self.value keeps the deepest slot at index 0 and the top of
the stack at the end; `empty_pops` counts pops performed while empty. -/

/-- A VariableStack (memtypes.py, class VariableStack). -/
structure VariableStack where
  value : List Variable
  empty_pops : Nat := 0
deriving DecidableEq

namespace VariableStack

/-- VariableStack.MAX_SIZE. -/
def MAX_SIZE : Nat := 1024

/-- Static method VariableStack.__new_metavar: a MetaVariable with payload n
and the corresponding name "S{n}". -/
def new_metavar (n : Nat) : Variable := MetaVariable.init ("S" ++ toString n) n

/-- Method push: append the variable unless the stack already holds MAX_SIZE
items, in which case the push is silently discarded. -/
def push (s : VariableStack) (var : Variable) : VariableStack :=
  if s.value.length < MAX_SIZE then { s with value := s.value ++ [var] } else s

/-- Method pop: remove and return the top variable if one exists; otherwise
increment empty_pops and synthesise a MetaVariable from past the bottom. -/
def pop (s : VariableStack) : Variable × VariableStack :=
  match s.value.getLast? with
  | some v => (v, { s with value := s.value.dropLast })
  | none => (new_metavar s.empty_pops, { s with empty_pops := s.empty_pops + 1 })

/-- Method push_many: push a sequence, low index elements first. -/
def push_many (s : VariableStack) (vs : List Variable) : VariableStack :=
  vs.foldl push s

/-- Method pop_many: pop and return n items; first-popped elements inhabit
low indices. -/
def pop_many (n : Nat) (s : VariableStack) : List Variable × VariableStack :=
  match n with
  | 0 => ([], s)
  | n + 1 =>
    let p := pop s
    let rest := pop_many n p.2
    (p.1 :: rest.1, rest.2)

/-- Method dup: place a copy of stack[n-1] on the top of the stack by popping
n items, prepending the deepest of them, and pushing everything back.
(For n = 0 Python would raise an IndexError on items[-1]; dup is only ever
invoked with n between 1 and 16.) -/
def dup (n : Nat) (s : VariableStack) : VariableStack :=
  let p := pop_many n s
  match p.1.getLast? with
  | none => p.2
  | some last => push_many p.2 (last :: p.1).reverse

/-- Method swap: exchange stack[0] with stack[n]. -/
def swap (n : Nat) (s : VariableStack) : VariableStack :=
  let p := pop_many n s
  match p.1 with
  | [] => p.2
  | x :: mid =>
    match (x :: mid).getLast? with
    | none => p.2
    | some last => push_many p.2 (last :: mid.dropLast ++ [x]).reverse

/-- Python __eq__ of VariableStack (memtypes.py lines 433-436): equal lengths
and pairwise Variable.__eq__ (value-set comparison) from the top down; the
empty_pops counters and the variables' names play no part. -/
def pyEq (a b : VariableStack) : Bool :=
  a.value.length == b.value.length &&
    (a.value.reverse.zip b.value.reverse).all (fun p => p.1.value == p.2.value)

/-- The zip_longest of the two reversed value lists with Variable.bottom()
fill, as used by VariableStack.meet and VariableStack.join. -/
def zipLongestRev (a b : List Variable) : List (Variable × Variable) :=
  let ra := a.reverse
  let rb := b.reverse
  (List.range (max ra.length rb.length)).map
    (fun i => (ra.getD i (Variable.bottom), rb.getD i (Variable.bottom)))

/-- Classmethod VariableStack.meet: element-wise Variable.meet from the top
down, dropping the run of Bottom-valued slots at the deep end of the result
before rebuilding a stack (whose empty_pops is 0, as for any new stack). -/
def meet (a b : VariableStack) : VariableStack :=
  let pairs := zipLongestRev a.value b.value
  { value := (pairs.map (fun p => Variable.meet p.1 p.2)).reverse.dropWhile
      (fun x => x.is_bottom),
    empty_pops := 0 }

/-- Classmethod VariableStack.join: element-wise Variable.join from the top
down, keeping every position. -/
def join (a b : VariableStack) : VariableStack :=
  { value := (pairs_map a b).reverse, empty_pops := 0 }
where
  /-- the list comprehension [Variable.join(*p) for p in pairs] -/
  pairs_map (a b : VariableStack) : List Variable :=
    (zipLongestRev a.value b.value).map (fun p => Variable.join p.1 p.2)

end VariableStack

/-! ## Stack lemmas -/

/-- Reading every position of a list back with getD reproduces the list. -/
lemma map_getD_range {α : Type} (xs : List α) (d : α) :
    (List.range xs.length).map (fun i => xs.getD i d) = xs := by
  induction xs with
  | nil => simp
  | cons x xs ih =>
    rw [List.length_cons, List.range_succ_eq_map, List.map_cons, List.map_map]
    simp only [List.getD_cons_zero]
    refine congrArg (x :: ·) ?_
    have hfun : ((fun i => (x :: xs).getD i d) ∘ Nat.succ) =
        (fun i => xs.getD i d) := by
      funext i
      simp [List.getD_cons_succ]
    rw [hfun, ih]

/-- zip_longest of a reversed list with itself needs no fill and pairs every
slot with itself. -/
lemma zipLongestRev_self (l : List Variable) :
    VariableStack.zipLongestRev l l = l.reverse.map (fun v => (v, v)) := by
  unfold VariableStack.zipLongestRev
  simp only [Nat.max_self]
  conv_rhs => rw [← map_getD_range l.reverse Variable.bottom, List.map_map]
  rfl

/-- zip_longest of a reversed list with the empty stack pairs every slot with
the Bottom fill variable. -/
lemma zipLongestRev_nil (l : List Variable) :
    VariableStack.zipLongestRev l [] =
      l.reverse.map (fun v => (v, Variable.bottom)) := by
  unfold VariableStack.zipLongestRev
  simp only [List.reverse_nil, List.length_nil, Nat.max_zero, List.getD]
  conv_rhs => rw [← map_getD_range l.reverse Variable.bottom, List.map_map]
  rfl

/-- Pairwise value comparison of two lists coincides with equality of their
value projections. -/
lemma length_and_zip_values_iff (l1 l2 : List Variable) :
    (l1.length = l2.length ∧ ∀ p ∈ l1.zip l2, p.1.value = p.2.value) ↔
      l1.map Variable.value = l2.map Variable.value := by
  induction l1 generalizing l2 with
  | nil => cases l2 <;> simp
  | cons x xs ih =>
    cases l2 with
    | nil => simp
    | cons y ys =>
      constructor
      · rintro ⟨hlen, hall⟩
        have hx : x.value = y.value := hall (x, y) (by simp)
        have ht := (ih ys).mp
          ⟨by simpa using hlen, fun p hp => hall p (by simp [hp])⟩
        simp only [List.map_cons, hx, ht]
      · intro h
        simp only [List.map_cons, List.cons.injEq] at h
        obtain ⟨hxy, hmap⟩ := h
        have ht := (ih ys).mpr hmap
        refine ⟨by simpa using ht.1, ?_⟩
        rintro ⟨a, b⟩ hp
        rcases List.mem_cons.mp (by exact hp) with heq | hmem
        · cases heq; exact hxy
        · exact ht.2 _ hmem

/-- Python equality of stacks holds exactly when the lists of value sets
coincide positionally. -/
lemma pyEq_iff_map_value (a b : VariableStack) :
    VariableStack.pyEq a b = true ↔
      a.value.map Variable.value = b.value.map Variable.value := by
  unfold VariableStack.pyEq
  rw [Bool.and_eq_true, List.all_eq_true]
  have hrev := length_and_zip_values_iff a.value.reverse b.value.reverse
  constructor
  · rintro ⟨hlen, hall⟩
    have hlen2 : a.value.length = b.value.length := by simpa using hlen
    have ht := hrev.mp ⟨by simpa using hlen2,
      fun p hp => by simpa using hall p hp⟩
    rw [List.map_reverse, List.map_reverse] at ht
    exact List.reverse_injective ht
  · intro h
    have hmapsrev : a.value.reverse.map Variable.value
        = b.value.reverse.map Variable.value := by
      rw [List.map_reverse, List.map_reverse, h]
    obtain ⟨hlen, hall⟩ := hrev.mpr hmapsrev
    refine ⟨?_, fun p hp => by simpa using hall p hp⟩
    simp only [beq_iff_eq]
    simpa using hlen

/-- Meeting any Variable with a Bottom fill produces a Bottom-valued result. -/
lemma meet_bottom_is_bottom (v : Variable) :
    (Variable.meet v Variable.bottom).is_bottom = true := by
  unfold Variable.meet Variable.bottom Variable.ofValues
  cases hv : v.value with
  | top =>
    simp [hv, SubsetLatticeElement.is_top, Variable.is_bottom,
      SubsetLatticeElement.is_bottom]
  | elems s =>
    simp [hv, SubsetLatticeElement.is_top, Variable.is_bottom,
      SubsetLatticeElement.is_bottom]

/-- Under the constructor invariant (all members reduced mod CARDINALITY),
meeting a Variable with itself preserves its value set. -/
lemma meet_self_value (v : Variable) (hv : Variable.canonical v = true) :
    (Variable.meet v v).value = v.value := by
  unfold Variable.meet
  cases hval : v.value with
  | top => simp [hval, SubsetLatticeElement.is_top]
  | elems s =>
    simp only [hval, SubsetLatticeElement.is_top, Bool.false_eq_true,
      if_false, Finset.inter_self]
    unfold Variable.ofValues
    unfold Variable.canonical at hv
    rw [hval] at hv
    have hs : ∀ x ∈ s, x.fmod CARDINALITY = x := of_decide_eq_true hv
    have : s.image (fun x => x.fmod CARDINALITY) = s.image id :=
      Finset.image_congr (fun x hx => hs x hx)
    simp [this]

/-- Under the constructor invariant, joining a Variable with itself preserves
its value set. -/
lemma join_self_value (v : Variable) (hv : Variable.canonical v = true) :
    (Variable.join v v).value = v.value := by
  unfold Variable.join
  cases hval : v.value with
  | top => simp [hval, SubsetLatticeElement.is_top, Variable.top]
  | elems s =>
    simp only [hval, SubsetLatticeElement.is_top, Bool.or_self,
      Bool.false_eq_true, if_false, Finset.union_self]
    unfold Variable.ofValues
    unfold Variable.canonical at hv
    rw [hval] at hv
    have hs : ∀ x ∈ s, x.fmod CARDINALITY = x := of_decide_eq_true hv
    have : s.image (fun x => x.fmod CARDINALITY) = s.image id :=
      Finset.image_congr (fun x hx => hs x hx)
    simp [this]

/-- A run of pops from a stack with empty list and counter e yields the
metavariables with payloads e, e+1, ... and advances the counter. -/
lemma pop_many_empty (k e : Nat) :
    VariableStack.pop_many k { value := [], empty_pops := e } =
      ((List.range k).map (fun i => VariableStack.new_metavar (e + i)),
        { value := [], empty_pops := e + k }) := by
  induction k generalizing e with
  | zero => simp [VariableStack.pop_many]
  | succ k ih =>
    rw [VariableStack.pop_many]
    have hpop : VariableStack.pop { value := [], empty_pops := e } =
        (VariableStack.new_metavar e, { value := [], empty_pops := e + 1 }) := by
      rfl
    rw [hpop, ih (e + 1)]
    refine Prod.ext ?_ (by simp [Nat.add_assoc, Nat.add_comm 1 k])
    rw [List.range_succ_eq_map, List.map_cons, List.map_map]
    simp only [Nat.add_zero]
    refine congrArg (VariableStack.new_metavar e :: ·) ?_
    refine List.map_congr_left ?_
    intro i _
    simp only [Function.comp]
    congr 1
    omega

/-! ## C8: pops from an empty stack -/

/-- C8 (confirmed).  k successive pops from an initially empty VariableStack
(pop_many k) return exactly the MetaVariables with payloads 0, 1, ..., k-1 and
names "S0", "S1", ..., in that order (new_metavar i is the MetaVariable whose
name is "S" followed by i and whose payload is i), and leave empty_pops = k. -/
theorem C8_empty_pops_counter_and_metavars (k : Nat) :
    VariableStack.pop_many k { value := [], empty_pops := 0 } =
      ((List.range k).map VariableStack.new_metavar,
        { value := [], empty_pops := k }) := by
  have h := pop_many_empty k 0
  simpa using h

/-! ## C10: stack equality semantics -/

/-- C10 (confirmed).  Two VariableStacks are Python-equal exactly when they
have the same length and positionally equal value sets — that is, when the
projections of their slots to value sets coincide.  The statement mentions
neither empty_pops nor the names, which is the point: stacks differing only
in those compare equal. -/
theorem C10_stack_eq_iff_value_sets (a b : VariableStack) :
    VariableStack.pyEq a b = true ↔
      a.value.map Variable.value = b.value.map Variable.value :=
  pyEq_iff_map_value a b

/-! ## C6: push/pop and dup on a stack

The claim quantifies over every VariableStack, but push silently discards its
argument when the stack already holds MAX_SIZE = 1024 items (memtypes.py lines
459-462), so push-then-pop returns the old top, not the pushed value. -/

/-- A concrete Variable with value set containing only 1. -/
def varOne : Variable := { value := .elems {1}, name := "a" }

/-- A concrete Variable with value set containing only 2. -/
def varTwo : Variable := { value := .elems {2}, name := "b" }

/-- A stack already holding MAX_SIZE variables. -/
def fullStack : VariableStack :=
  { value := List.replicate 1024 varOne, empty_pops := 0 }

/-- C6 (counterexample).  On a stack holding MAX_SIZE = 1024 items, pushing
varTwo is silently discarded and the following pop returns the old top, whose
value set differs from varTwo's, so the claim fails as stated. -/
theorem C6_counterexample :
    ((fullStack.push varTwo).pop.1 ≠ varTwo) ∧
      ((fullStack.push varTwo).pop.1.value ≠ varTwo.value) := by
  constructor
  · decide
  · decide

/-- C6 (corrected).  Provided the stack is not already at MAX_SIZE, push
followed by pop returns the pushed variable (and restores the stack), and
dup(1) followed by two pops yields the same variable twice. -/
theorem C6_push_pop_dup (s : VariableStack) (v : Variable)
    (h : s.value.length < VariableStack.MAX_SIZE) :
    (s.push v).pop = (v, s) ∧
      ((s.dup 1).pop.1 = ((s.dup 1).pop.2).pop.1) := by
  constructor
  · unfold VariableStack.push
    rw [if_pos h]
    unfold VariableStack.pop
    simp
  · rcases s with ⟨l, e⟩
    induction l using List.reverseRecOn with
    | nil =>
      have h1 : VariableStack.pop { value := [], empty_pops := e } =
          (VariableStack.new_metavar e, { value := [], empty_pops := e + 1 }) :=
        rfl
      have h2 : VariableStack.pop_many 1 { value := [], empty_pops := e } =
          ([VariableStack.new_metavar e], { value := [], empty_pops := e + 1 }) := by
        simp [VariableStack.pop_many, h1]
      have h3 : VariableStack.dup 1 { value := [], empty_pops := e } =
          VariableStack.push_many { value := [], empty_pops := e + 1 }
            [VariableStack.new_metavar e, VariableStack.new_metavar e] := by
        rw [VariableStack.dup, h2]
        rfl
      have h4 : VariableStack.push_many { value := [], empty_pops := e + 1 }
          [VariableStack.new_metavar e, VariableStack.new_metavar e] =
          { value := [VariableStack.new_metavar e, VariableStack.new_metavar e],
            empty_pops := e + 1 } := by
        simp [VariableStack.push_many, VariableStack.push, VariableStack.MAX_SIZE]
      rw [h3, h4]
      rfl
    | append_singleton l x _ =>
      have hl : l.length + 1 < 1024 := by
        simpa [VariableStack.MAX_SIZE] using h
      have h1 : VariableStack.pop { value := l ++ [x], empty_pops := e } =
          (x, { value := l, empty_pops := e }) := by
        simp [VariableStack.pop, List.getLast?_concat, List.dropLast_concat]
      have h2 : VariableStack.pop_many 1 { value := l ++ [x], empty_pops := e } =
          ([x], { value := l, empty_pops := e }) := by
        simp [VariableStack.pop_many, h1]
      have h3 : VariableStack.dup 1 { value := l ++ [x], empty_pops := e } =
          VariableStack.push_many { value := l, empty_pops := e } [x, x] := by
        rw [VariableStack.dup, h2]
        rfl
      have hpush : ∀ (l2 : List Variable) (e2 : Nat) (v2 : Variable),
          l2.length < 1024 →
          VariableStack.push { value := l2, empty_pops := e2 } v2 =
            { value := l2 ++ [v2], empty_pops := e2 } := by
        intro l2 e2 v2 h2
        unfold VariableStack.push VariableStack.MAX_SIZE
        rw [if_pos (by simpa using h2)]
      have h4 : VariableStack.push_many { value := l, empty_pops := e } [x, x] =
          { value := (l ++ [x]) ++ [x], empty_pops := e } := by
        simp only [VariableStack.push_many, List.foldl_cons, List.foldl_nil]
        rw [hpush l e x (by omega), hpush (l ++ [x]) e x (by simpa using hl)]
      have h5 : VariableStack.pop { value := (l ++ [x]) ++ [x], empty_pops := e } =
          (x, { value := l ++ [x], empty_pops := e }) := by
        simp [VariableStack.pop, List.getLast?_concat, List.dropLast_concat]
      rw [h3, h4, h5]
      simp only
      rw [h1]

/-! ## C7: stack lattice idempotence

The claim states meet(s, s) = s for every stack, but VariableStack.meet drops
the run of Bottom-valued slots at the deep end of its result (memtypes.py
line 511, dropwhile), so a stack whose deepest slot holds a Bottom-valued
Variable shrinks under meet with itself. -/

/-- C7 (counterexample).  For the one-slot stack holding a Bottom-valued
Variable, meet(s, s) is the empty stack, which has a different length, so
meet(s, s) = s fails as the claim states it. -/
theorem C7_counterexample :
    VariableStack.pyEq
      (VariableStack.meet { value := [Variable.bottom], empty_pops := 0 }
        { value := [Variable.bottom], empty_pops := 0 })
      { value := [Variable.bottom], empty_pops := 0 } = false := by
  decide

/-- C7 (corrected).  For stacks satisfying the Variable constructor invariant
(all members reduced modulo CARDINALITY — true of every stack the Python code
builds): meet(s, empty) is the empty stack and join(s, s) = s hold for every
such s, while meet(s, s) = s additionally needs the run of Bottom-valued
slots at the deep end of s to be empty (meet canonically drops it). -/
theorem C7_meet_join_idempotence (s : VariableStack)
    (hc : ∀ v ∈ s.value, Variable.canonical v = true) :
    (VariableStack.pyEq
      (VariableStack.meet s { value := [], empty_pops := 0 })
      { value := [], empty_pops := 0 } = true) ∧
    (VariableStack.pyEq (VariableStack.join s s) s = true) ∧
    (s.value.dropWhile (fun v => v.is_bottom) = s.value →
      VariableStack.pyEq (VariableStack.meet s s) s = true) := by
  refine ⟨?_, ?_, ?_⟩
  · -- meet with the empty stack: every paired slot meets the Bottom fill
    rw [pyEq_iff_map_value]
    simp only [VariableStack.meet, zipLongestRev_nil, List.map_map]
    have hall : ∀ x ∈ (List.map ((fun p => Variable.meet p.1 p.2) ∘
        fun v => (v, Variable.bottom)) s.value.reverse).reverse,
        x.is_bottom = true := by
      intro x hx
      simp only [List.mem_reverse, List.mem_map] at hx
      obtain ⟨v, _, hv⟩ := hx
      have hb := meet_bottom_is_bottom v
      simp only [Function.comp] at hv
      rw [hv] at hb
      exact hb
    rw [List.dropWhile_eq_nil_iff.mpr hall]
  · -- join with itself: positions and value sets are preserved
    rw [pyEq_iff_map_value]
    show ((VariableStack.join.pairs_map s s).reverse).map Variable.value =
      s.value.map Variable.value
    simp only [VariableStack.join.pairs_map, zipLongestRev_self, List.map_map,
      List.map_reverse, List.reverse_reverse]
    refine List.map_congr_left ?_
    intro v hv
    exact join_self_value v (hc v hv)
  · -- meet with itself, when no Bottom run sits at the deep end
    intro hd
    rw [pyEq_iff_map_value]
    simp only [VariableStack.meet, zipLongestRev_self, List.map_map,
      List.map_reverse, List.reverse_reverse]
    have hmap : List.map ((fun p => Variable.meet p.1 p.2) ∘
        fun v => (v, v)) s.value =
        List.map (fun v => Variable.meet v v) s.value :=
      List.map_congr_left (fun v _ => rfl)
    rw [hmap]
    cases hsv : s.value with
    | nil => simp
    | cons x xs =>
      rw [hsv] at hd hc
      have hpx : x.is_bottom = false := by
        have h0 := List.dropWhile_eq_self_iff.mp hd (by simp)
        simpa using h0
      have hmx : (Variable.meet x x).is_bottom = false := by
        have hv := meet_self_value x (hc x (by simp))
        unfold Variable.is_bottom
        unfold Variable.is_bottom at hpx
        simpa [hv] using hpx
      rw [List.map_cons, List.dropWhile_cons, if_neg (by simp [hmx])]
      rw [List.map_cons]
      refine congrArg₂ (· :: ·) ?_ ?_
      · exact meet_self_value x (hc x (by simp))
      · rw [List.map_map]
        refine List.map_congr_left ?_
        intro v hv
        exact meet_self_value v (hc v (by simp [hv]))

/-- Witness for C7 on a one-slot canonical stack. -/
theorem C7_witness :
    (VariableStack.pyEq
      (VariableStack.meet { value := [varOne], empty_pops := 0 }
        { value := [], empty_pops := 0 })
      { value := [], empty_pops := 0 } = true) ∧
    (VariableStack.pyEq
      (VariableStack.join { value := [varOne], empty_pops := 0 }
        { value := [varOne], empty_pops := 0 })
      { value := [varOne], empty_pops := 0 } = true) ∧
    (VariableStack.pyEq
      (VariableStack.meet { value := [varOne], empty_pops := 0 }
        { value := [varOne], empty_pops := 0 })
      { value := [varOne], empty_pops := 0 } = true) :=
  ⟨(C7_meet_join_idempotence { value := [varOne], empty_pops := 0 }
      (by decide)).1,
   (C7_meet_join_idempotence { value := [varOne], empty_pops := 0 }
      (by decide)).2.1,
   (C7_meet_join_idempotence { value := [varOne], empty_pops := 0 }
      (by decide)).2.2 (by decide)⟩

/-- Witness for C6 on the empty stack and the variable varOne. -/
theorem C6_witness :
    (({ value := [], empty_pops := 0 } : VariableStack).push varOne).pop =
        (varOne, { value := [], empty_pops := 0 }) ∧
      ((({ value := [], empty_pops := 0 } : VariableStack).dup 1).pop.1 =
        (((({ value := [], empty_pops := 0 } : VariableStack).dup 1).pop.2).pop.1)) :=
  C6_push_pop_dup { value := [], empty_pops := 0 } varOne (by decide)

/-! ## lattice.py cartesian_map and memtypes.py arith_op (for C9) -/

namespace SubsetLatticeElement

/-- The product of a list of lists, in itertools.product order: the first
input varies slowest. -/
def listProd : List (List Int) → List (List Int)
  | [] => [[]]
  | xs :: rest => (xs.map (fun x => (listProd rest).map (x :: ·))).flatten

/-- Materialisation of a sequence of lattice elements by list(e) for each, as
itertools.product does to its arguments: the first element whose iteration
raises aborts the whole call. -/
def iterAll : List SubsetLatticeElement → Except PyErr (List (List Int))
  | [] => .ok []
  | e :: rest => do
    let l ← e.iterList
    let ls ← iterAll rest
    .ok (l :: ls)

/-- Classmethod SubsetLatticeElement.cartesian_map (lattice.py lines 237-256):
if any input element is Top the result is Top; otherwise every element is
materialised as a list (its __iter__ raising TypeError when its length is 0,
i.e. on Bottom), the Cartesian product is taken, and f is applied to each
combination, the results forming a plain (unreduced) set. -/
def cartesian_map (f : List Int → Int) (elements : List SubsetLatticeElement) :
    Except PyErr SubsetLatticeElement :=
  if elements.any (fun e => e.is_top) then .ok .top
  else do
    let ls ← iterAll elements
    .ok (.elems ((listProd ls).map f).toFinset)

end SubsetLatticeElement

namespace Variable

/-- Variable.__init__ applied to a SubsetLatticeElement argument, as done at
the end of arith_op (memtypes.py lines 56-65): the list comprehension
[v % CARDINALITY for v in values] iterates the lattice element, raising
TypeError when its length is 0 (in particular when it is Top). -/
def initFromElement (values : SubsetLatticeElement) (name : String) :
    Except PyErr Variable := do
  let vs ← values.iterList
  .ok { value := .elems ((vs.map (fun v => v.fmod CARDINALITY)).toFinset),
        name := name }

/-- Classmethod Variable.arith_op (memtypes.py lines 186-200): cartesian_map
the operation over the argument Variables' value sets, then build the result
Variable from the produced lattice element.  The Python opname dispatch
(getattr) is modelled by passing the pure integer function f directly. -/
def arith_op (f : List Int → Int) (args : List Variable)
    (name : String := "Res") : Except PyErr Variable := do
  let result ← SubsetLatticeElement.cartesian_map f (args.map Variable.value)
  initFromElement result name

end Variable

/-- Materialising a sequence of lattice elements fails whenever one of them
fails to iterate. -/
lemma iterAll_error_of_mem (l : List SubsetLatticeElement)
    (v : SubsetLatticeElement) (hv : v ∈ l)
    (he : v.iterList = .error PyErr.typeError) :
    SubsetLatticeElement.iterAll l = .error PyErr.typeError := by
  induction l with
  | nil => cases hv
  | cons x xs ih =>
    rcases List.mem_cons.mp hv with rfl | hmem
    · unfold SubsetLatticeElement.iterAll
      rw [he]
      rfl
    · unfold SubsetLatticeElement.iterAll
      cases hgx : x.iterList with
      | error e3 =>
        cases e3
        rfl
      | ok b =>
        rw [ih hmem]
        rfl

/-! ## C9: arith_op on Top or Bottom arguments -/

/-- C9 (confirmed).  Whenever some argument Variable's value set is Top
(unconstrained) or Bottom (empty), Variable.arith_op raises TypeError instead
of returning a Variable: on a Top argument cartesian_map short-circuits to
Top and the Variable constructor then iterates it (raising), and on a Bottom
argument (none being Top) the iteration inside cartesian_map raises. -/
theorem C9_arith_op_type_error (f : List Int → Int) (args : List Variable)
    (name : String)
    (h : ∃ v ∈ args, v.is_unconstrained = true ∨ v.is_bottom = true) :
    Variable.arith_op f args name = .error PyErr.typeError := by
  obtain ⟨v, hv, hcase⟩ := h
  unfold Variable.arith_op
  by_cases htop : (args.map Variable.value).any (fun e => e.is_top)
  · have hc : SubsetLatticeElement.cartesian_map f (args.map Variable.value) =
        .ok .top := by
      unfold SubsetLatticeElement.cartesian_map
      rw [if_pos htop]
    rw [hc]
    rfl
  · have hvb : v.value.is_bottom = true := by
      rcases hcase with hc | hc
      · exfalso
        apply htop
        rw [List.any_eq_true]
        exact ⟨v.value, List.mem_map_of_mem Variable.value hv, hc⟩
      · exact hc
    have hiter : v.value.iterList = .error PyErr.typeError := by
      cases hval : v.value with
      | top => rfl
      | elems s =>
        unfold Variable.is_bottom SubsetLatticeElement.is_bottom at hvb
        rw [hval] at hvb
        have hse : s = (∅ : Finset Int) := by simpa using hvb
        rw [hse]
        rfl
    have hall := iterAll_error_of_mem (args.map Variable.value) v.value
      (List.mem_map_of_mem Variable.value hv) hiter
    have hc : SubsetLatticeElement.cartesian_map f (args.map Variable.value) =
        .error PyErr.typeError := by
      unfold SubsetLatticeElement.cartesian_map
      rw [if_neg htop, hall]
      rfl
    rw [hc]
    rfl

/-- Witness for C9: adding a Top argument to a concrete one raises TypeError
(f is the two-argument ADD lifted to argument lists). -/
theorem C9_witness :
    Variable.arith_op
      (fun l => Variable.ADD (l.getD 0 0) (l.getD 1 0))
      [Variable.top "Var", varOne] "Res" = .error PyErr.typeError :=
  C9_arith_op_type_error _ [Variable.top "Var", varOne] "Res"
    ⟨Variable.top "Var", by simp, Or.inl (by decide)⟩

/-! ## tac_cfg.py Destackifier.__new_var (for C5)

tac_cfg.py line 884 calls mem.Variable.top(name=..., def_sites=ssle([...])),
but the Variable class in memtypes.py has no def_sites parameter anywhere
(its classmethod top, lines 139-149, accepts only the keyword `name`), so in
Python the call raises TypeError before any Variable is produced.  The spec
(data model: "Carries a def_sites field") documents the intent the call site
relies on; the memtypes code is missing it. -/

/-- The keyword parameter names of classmethod Variable.top as defined in
memtypes.py: def top(cls, name="Var"). -/
def topKeywordParams : List String := ["name"]

/-- The keyword arguments passed to Variable.top by Destackifier.__new_var in
tac_cfg.py: name=..., def_sites=... . -/
def newVarKeywordArgs : List String := ["name", "def_sites"]

/-- Python call semantics: a call binds only if every keyword argument names
a declared parameter; otherwise it raises TypeError. -/
def kwargsAccepted (params kwargs : List String) : Bool :=
  kwargs.all (fun k => params.contains k)

namespace Destackifier

/-- Destackifier.__new_var (tac_cfg.py lines 882-887): construct a fresh
variable named V{stack_vars} via Variable.top, passing the keyword arguments
name and def_sites.  The call is modelled with Python's keyword-binding rule:
it returns the Variable only if Variable.top accepts all keywords. -/
def new_var (block_entry stack_vars : Nat) : Except PyErr Variable :=
  if kwargsAccepted topKeywordParams newVarKeywordArgs then
    .ok (Variable.top ("V" ++ toString stack_vars))
  else .error PyErr.typeError

end Destackifier

/-! ## tac_cfg.py: blocks, the graph, and hook_up_jumps (for C1)

Blocks are identified by their index into the graph's block list (Python
object identity).  Program counters are integers.  A TACArg is represented by
the Variable its `value` property yields. -/

/-- Opcodes, as far as hook_up_jumps distinguishes them.  Modelled from the
spec for the external opcode table (spec section 6): any opcode other than
the jumps is characterised by its halts() predicate alone, so remaining
mnemonics are collapsed into `other` carrying that bit. -/
inductive Opcode where
  | JUMP : Opcode
  | JUMPI : Opcode
  | JUMPDEST : Opcode
  | THROW : Opcode
  | THROWI : Opcode
  | other : String → Bool → Opcode
deriving DecidableEq

/-- Modelled from the spec: the halts() predicate of the opcode table; a
halting final opcode yields no fallthrough (spec 4.4), and THROW/THROWI
terminate a block. -/
def Opcode.haltsB : Opcode → Bool
  | .THROW => true
  | .THROWI => true
  | .other _ h => h
  | _ => false

/-- A TACOp (tac_cfg.py class TACOp): opcode, argument variables (each
TACArg contributing its value), and the pc of the source instruction. -/
structure TACOp where
  opcode : Opcode
  args : List Variable
  pc : Int
deriving DecidableEq

/-- A TACBasicBlock, restricted to the fields hook_up_jumps touches:
entry/exit pcs, the TAC op sequence, the successor and predecessor edge
lists (holding block indices), and the unresolved-jump flag. -/
structure TACBasicBlock where
  entry : Int
  exit : Int
  tac_ops : List TACOp
  succs : List Nat
  preds : List Nat
  has_unresolved_jump : Bool
deriving DecidableEq

/-- A TACGraph: the sequence of blocks; edges live in the blocks' succs and
preds lists (spec section 3). -/
structure TACGraph where
  blocks : List TACBasicBlock
deriving DecidableEq

namespace TACGraph

/-- TACGraph.get_blocks_by_pc (tac_cfg.py lines 142-148): the indices of the
blocks whose entry-exit span includes the pc, in block-list order. -/
def get_blocks_by_pc (g : TACGraph) (pc : Int) : List Nat :=
  (g.blocks.enum.filter (fun p => p.2.entry ≤ pc && pc ≤ p.2.exit)).map
    Prod.fst

/-- TACGraph.get_ops_by_pc (tac_cfg.py lines 150-159): the ops whose pc
matches, paired with the index of the block holding them (op.block). -/
def get_ops_by_pc (g : TACGraph) (pc : Int) : List (Nat × TACOp) :=
  ((g.get_blocks_by_pc pc).map (fun i =>
    ((match g.blocks[i]? with
      | some b => b.tac_ops.filter (fun op => op.pc == pc)
      | none => ([] : List TACOp)) : List TACOp).map (fun op => (i, op)))).flatten

/-- TACGraph.is_valid_jump_dest (tac_cfg.py lines 137-140): some op exists at
the pc and at least one of them is a JUMPDEST. -/
def is_valid_jump_dest (g : TACGraph) (pc : Int) : Bool :=
  let ops := g.get_ops_by_pc pc
  ops.length != 0 && ops.any (fun p => p.2.opcode == .JUMPDEST)

/-- Overwrite block i with f applied to it (mutation of a block object). -/
def modifyBlock (g : TACGraph) (i : Nat) (f : TACBasicBlock → TACBasicBlock) :
    TACGraph :=
  match g.blocks[i]? with
  | some b => { blocks := g.blocks.set i (f b) }
  | none => g

/-- TACGraph.remove_edge (tac_cfg.py lines 290-295): delete tail from head's
succs and head from tail's preds, each only if present (list.remove drops the
first occurrence, and block identity is index identity here). -/
def remove_edge (g : TACGraph) (head tail : Nat) : TACGraph :=
  let g1 := g.modifyBlock head (fun b => { b with succs := b.succs.erase tail })
  g1.modifyBlock tail (fun b => { b with preds := b.preds.erase head })

/-- TACGraph.add_edge (tac_cfg.py lines 297-302): append tail to head's succs
and head to tail's preds, each only if missing. -/
def add_edge (g : TACGraph) (head tail : Nat) : TACGraph :=
  let g1 := g.modifyBlock head (fun b =>
    if tail ∈ b.succs then b else { b with succs := b.succs ++ [tail] })
  g1.modifyBlock tail (fun b =>
    if head ∈ b.preds then b else { b with preds := b.preds ++ [head] })

/-- The entry pc of the block at index i (s.entry for a successor object). -/
def entryOf (g : TACGraph) (i : Nat) : Int :=
  match g.blocks[i]? with
  | some b => b.entry
  | none => 0

end TACGraph

/-- TACOp.convert_jump_to_throw (tac_cfg.py lines 752-763): JUMP becomes
THROW with no args, JUMPI becomes THROWI keeping the condition argument
(args[1]), anything else is returned unchanged. -/
def convert_jump_to_throw (op : TACOp) : TACOp :=
  if op.opcode = .JUMP then { opcode := .THROW, args := [], pc := op.pc }
  else if op.opcode = .JUMPI then
    { opcode := .THROWI, args := (op.args.drop 1).take 1, pc := op.pc }
  else op

/-- handle_valid_dests (tac_cfg.py lines 597-610): ok none encodes the False
return on an unconstrained destination set (the jumpdest map left untouched,
hence empty); otherwise `for v in d` iterates the value set — raising
TypeError on a Bottom (empty) set, as SubsetLatticeElement.__iter__ does on
any element of length 0 — and ok (some jd) carries the map from each valid
destination value to the blocks owning an op at it. -/
def handle_valid_dests (g : TACGraph) (d : SubsetLatticeElement) :
    Except PyErr (Option (List (Int × List Nat))) :=
  if d.is_top then .ok none
  else do
    let vs ← d.iterList
    .ok (some ((vs.filter (fun v => g.is_valid_jump_dest v)).map
      (fun v => (v, (g.get_ops_by_pc v).map Prod.fst))))

/-- The state the first half of hook_up_jumps computes for the final op:
the possibly mutated op list and final op, the jumpdest map, the fallthrough
block list, and the invalid/unresolved bits. -/
structure ResolveResult where
  tac_ops2 : List TACOp
  final2 : TACOp
  jumpdests : List (Int × List Nat)
  fallthrough : List Nat
  invalid_jump : Bool
  unresolved : Bool
deriving DecidableEq

/-- The opcode dispatch of hook_up_jumps (tac_cfg.py lines 612-660): the
returned fields reflect exactly the mutations each branch performs; none
models a raised exception — IndexError on a JUMPI/JUMP without the required
arguments, or the TypeError handle_valid_dests raises on a Bottom-valued
destination set, both of which propagate out of hook_up_jumps uncaught. -/
def resolve_final (g : TACGraph) (self : TACBasicBlock) (final_op : TACOp)
    (mutate_jumps : Bool) : Option ResolveResult :=
  if final_op.opcode = .JUMPI then
    (final_op.args[0]?).bind fun dest =>
    (final_op.args[1]?).bind fun cond =>
      if mutate_jumps && cond.is_false then
        -- the condition cannot be true: delete the op, fall through
        some { tac_ops2 := self.tac_ops.dropLast
               final2 := final_op
               jumpdests := []
               fallthrough := g.get_blocks_by_pc (final_op.pc + 1)
               invalid_jump := false
               unresolved := false }
      else if mutate_jumps && cond.is_true then
        -- the condition must be true: the JUMPI behaves like a JUMP
        let final3 : TACOp :=
          { final_op with opcode := .JUMP, args := final_op.args.dropLast }
        match handle_valid_dests g dest.value with
        | .error _ => none
        | .ok none =>
          some { tac_ops2 := self.tac_ops.dropLast ++ [final3]
                 final2 := final3
                 jumpdests := []
                 fallthrough := []
                 invalid_jump := false
                 unresolved := false }
        | .ok (some jd) =>
          some { tac_ops2 := self.tac_ops.dropLast ++ [final3]
                 final2 := final3
                 jumpdests := jd
                 fallthrough := []
                 invalid_jump := jd.isEmpty
                 unresolved := false }
      else
        -- unresolved condition: keep the op, check the destination
        match handle_valid_dests g dest.value with
        | .error _ => none
        | .ok none =>
          some { tac_ops2 := self.tac_ops
                 final2 := final_op
                 jumpdests := []
                 fallthrough := g.get_blocks_by_pc (final_op.pc + 1)
                 invalid_jump := false
                 unresolved := dest.is_unconstrained }
        | .ok (some jd) =>
          some { tac_ops2 := self.tac_ops
                 final2 := final_op
                 jumpdests := jd
                 fallthrough := g.get_blocks_by_pc (final_op.pc + 1)
                 invalid_jump := jd.isEmpty
                 unresolved := dest.is_unconstrained }
  else if final_op.opcode = .JUMP then
    (final_op.args[0]?).bind fun dest =>
      match handle_valid_dests g dest.value with
      | .error _ => none
      | .ok none =>
        some { tac_ops2 := self.tac_ops
               final2 := final_op
               jumpdests := []
               fallthrough := []
               invalid_jump := false
               unresolved := dest.is_unconstrained }
      | .ok (some jd) =>
        some { tac_ops2 := self.tac_ops
               final2 := final_op
               jumpdests := jd
               fallthrough := []
               invalid_jump := jd.isEmpty
               unresolved := dest.is_unconstrained }
  else
    some { tac_ops2 := self.tac_ops
           final2 := final_op
           jumpdests := []
           fallthrough := if final_op.opcode.haltsB then []
             else g.get_blocks_by_pc (self.exit + 1)
           invalid_jump := false
           unresolved := false }

/-- TACBasicBlock.hook_up_jumps (tac_cfg.py lines 573-690) on the block at
index bid.  After the dispatch: optionally convert the final op to a throw,
store the unresolved flag, filter the jumpdest map and the fallthrough list
against the current successors, remove old successor edges not in the new
set whose entry is a jumpdest key, add the new edges (Python guards the
add_edge calls with a membership check that add_edge itself repeats), and
report whether the successor set changed.  none models a raised exception:
IndexError (no block at bid, empty tac_ops, missing jump arguments) or the
TypeError raised while iterating a Bottom-valued destination set. -/
def hook_up_jumps (g : TACGraph) (bid : Nat)
    (mutate_jumps generate_throws : Bool) : Option (TACGraph × Bool) :=
  (g.blocks[bid]?).bind fun self =>
    (self.tac_ops.getLast?).bind fun final_op =>
      (resolve_final g self final_op mutate_jumps).bind fun r =>
        let tac_ops3 := if generate_throws && r.invalid_jump then
            r.tac_ops2.dropLast ++ [convert_jump_to_throw r.final2]
          else r.tac_ops2
        let g1 := g.modifyBlock bid (fun b =>
          { b with tac_ops := tac_ops3, has_unresolved_jump := r.unresolved })
        let jd2 := r.jumpdests.map (fun p =>
          let ta := p.2.filter (fun d => d ∈ self.succs)
          (p.1, if ta.length ≠ 0 then ta else p.2))
        let ft2 :=
          let ta := r.fallthrough.filter (fun d => d ∈ self.succs)
          if ta.length ≠ 0 then ta else r.fallthrough
        let old_succs := self.succs
        let new_succs := ((jd2.map Prod.snd).flatten ++ ft2).dedup
        let g2 := (old_succs.filter (fun s =>
            !(new_succs.contains s) &&
              (jd2.map Prod.fst).contains (g.entryOf s))).foldl
          (fun gg s => gg.remove_edge bid s) g1
        let g3 := new_succs.foldl (fun gg s => gg.add_edge bid s) g2
        let final_succs := match g3.blocks[bid]? with
          | some b => b.succs
          | none => []
        some (g3, decide (old_succs.toFinset ≠ final_succs.toFinset))

/-! ## Graph lemmas for C1 -/

/-- Overwriting block i is visible at index i. -/
lemma modifyBlock_getElem_self (g : TACGraph) (i : Nat)
    (f : TACBasicBlock → TACBasicBlock) (b : TACBasicBlock)
    (h : g.blocks[i]? = some b) :
    (g.modifyBlock i f).blocks[i]? = some (f b) := by
  unfold TACGraph.modifyBlock
  rw [h]
  have hi : i < g.blocks.length := (List.getElem?_eq_some_iff.mp h).1
  simp [List.getElem?_set_self (by simpa using hi)]

/-- Overwriting block i leaves every other index unchanged. -/
lemma modifyBlock_getElem_ne (g : TACGraph) (i j : Nat)
    (f : TACBasicBlock → TACBasicBlock) (h : i ≠ j) :
    (g.modifyBlock i f).blocks[j]? = g.blocks[j]? := by
  unfold TACGraph.modifyBlock
  cases hb : g.blocks[i]? with
  | none => rfl
  | some b => simp [List.getElem?_set_ne h]

/-- The preds-side update performed by add_edge changes no other field. -/
lemma predsUpd_fields (x : TACBasicBlock) (h : Nat) :
    (if h ∈ x.preds then x else { x with preds := x.preds ++ [h] }).succs
        = x.succs ∧
    (if h ∈ x.preds then x else { x with preds := x.preds ++ [h] }).tac_ops
        = x.tac_ops ∧
    (if h ∈ x.preds then x
        else { x with preds := x.preds ++ [h] }).has_unresolved_jump
        = x.has_unresolved_jump := by
  by_cases hp : h ∈ x.preds <;> simp [hp]

/-- Adding an edge out of bid appends the target to bid's succs when missing
and touches none of bid's other relevant fields. -/
lemma add_edge_at_head (g : TACGraph) (bid t : Nat) (b : TACBasicBlock)
    (h : g.blocks[bid]? = some b) :
    ∃ b2, (g.add_edge bid t).blocks[bid]? = some b2 ∧
      b2.succs = (if t ∈ b.succs then b.succs else b.succs ++ [t]) ∧
      b2.tac_ops = b.tac_ops ∧
      b2.has_unresolved_jump = b.has_unresolved_jump := by
  unfold TACGraph.add_edge
  have h1 := modifyBlock_getElem_self g bid
    (fun x => if t ∈ x.succs then x else { x with succs := x.succs ++ [t] }) b h
  by_cases ht : t = bid
  · subst ht
    have h2 := modifyBlock_getElem_self _ t
      (fun x => if t ∈ x.preds then x else { x with preds := x.preds ++ [t] })
      _ h1
    obtain ⟨hs, ho, hu⟩ := predsUpd_fields
      (if t ∈ b.succs then b else { b with succs := b.succs ++ [t] }) t
    refine ⟨_, h2, ?_, ?_, ?_⟩
    · rw [hs]
      by_cases hmem : t ∈ b.succs <;> simp [hmem]
    · rw [ho]
      by_cases hmem : t ∈ b.succs <;> simp [hmem]
    · rw [hu]
      by_cases hmem : t ∈ b.succs <;> simp [hmem]
  · have h2 := modifyBlock_getElem_ne
      (g.modifyBlock bid fun x =>
        if t ∈ x.succs then x else { x with succs := x.succs ++ [t] })
      t bid
      (fun x => if bid ∈ x.preds then x else { x with preds := x.preds ++ [bid] })
      (fun he => ht he)
    refine ⟨_, h2.trans h1, ?_, ?_, ?_⟩
    · by_cases hmem : t ∈ b.succs <;> simp [hmem]
    · by_cases hmem : t ∈ b.succs <;> simp [hmem]
    · by_cases hmem : t ∈ b.succs <;> simp [hmem]

/-- Folding add_edge over a list of targets unions them into bid's successor
set and preserves bid's ops and unresolved flag. -/
lemma foldl_add_edge_at_head (ts : List Nat) (g : TACGraph) (bid : Nat)
    (b : TACBasicBlock) (h : g.blocks[bid]? = some b) :
    ∃ b2, (ts.foldl (fun gg s => gg.add_edge bid s) g).blocks[bid]? = some b2 ∧
      b2.succs.toFinset = b.succs.toFinset ∪ ts.toFinset ∧
      b2.tac_ops = b.tac_ops ∧
      b2.has_unresolved_jump = b.has_unresolved_jump := by
  induction ts generalizing g b with
  | nil => exact ⟨b, h, by simp, rfl, rfl⟩
  | cons t ts ih =>
    obtain ⟨b1, h1, hsuccs, hops, hunres⟩ := add_edge_at_head g bid t b h
    obtain ⟨b2, h2, hs2, ho2, hu2⟩ := ih (g.add_edge bid t) b1 h1
    refine ⟨b2, by simpa using h2, ?_, by rw [ho2, hops], by rw [hu2, hunres]⟩
    rw [hs2, hsuccs]
    by_cases hmem : t ∈ b.succs
    · rw [if_pos hmem]
      ext x
      simp only [Finset.mem_union, List.mem_toFinset, List.toFinset_cons,
        Finset.mem_insert]
      constructor
      · rintro (hx | hx)
        · exact Or.inl hx
        · exact Or.inr (Or.inr hx)
      · rintro (hx | hx | hx)
        · exact Or.inl hx
        · exact Or.inl (hx ▸ hmem)
        · exact Or.inr hx
    · rw [if_neg hmem]
      ext x
      simp only [Finset.mem_union, List.mem_toFinset, List.toFinset_cons,
        Finset.mem_insert, List.toFinset_append, List.mem_append,
        List.mem_cons, List.not_mem_nil, or_false]
      constructor
      · rintro ((hx | hx) | hx)
        · exact Or.inl hx
        · exact Or.inr (Or.inl hx)
        · exact Or.inr (Or.inr hx)
      · rintro (hx | hx | hx)
        · exact Or.inl (Or.inl hx)
        · exact Or.inl (Or.inr hx)
        · exact Or.inr hx

/-- Deduplication does not change the set of members. -/
lemma dedup_toFinset (l : List Nat) : l.dedup.toFinset = l.toFinset := by
  ext x
  simp [List.mem_toFinset, List.mem_dedup]

/-! ## C1: hook_up_jumps on a JUMPI with a false condition

The counterexample graph: block 0 ends in JUMPI at pc 2 with dest {100} and
cond {0} and already has block 1 (entry 100) as a successor; block 2 spans
pc 3 = final_pc + 1 and is the fallthrough.  The claim requires block 2 to be
the only successor afterwards; the code keeps the stale edge to block 1,
because the edge-removal loop (tac_cfg.py lines 682-684) only removes an old
successor whose entry is a key of the jumpdests map, and in the false-cond
branch that map is empty. -/

/-- The jump destination Variable of the example, value set containing 100. -/
def destVar : Variable := { value := .elems {100}, name := "V0" }

/-- The condition Variable of the example, value set containing only 0. -/
def condVar : Variable := { value := .elems {0}, name := "V1" }

/-- The JUMPI op of the example: JUMPI(destVar, condVar) at pc 2. -/
def exJumpiOp : TACOp :=
  { opcode := .JUMPI, args := [destVar, condVar], pc := 2 }

/-- Example block 0: ends in the JUMPI, with a pre-existing successor edge to
block 1. -/
def exBlock0 : TACBasicBlock :=
  { entry := 0, exit := 2,
    tac_ops := [exJumpiOp],
    succs := [1], preds := [], has_unresolved_jump := true }

/-- Example block 1: a JUMPDEST block at pc 100, currently a successor of
block 0. -/
def exBlock1 : TACBasicBlock :=
  { entry := 100, exit := 100,
    tac_ops := [{ opcode := .JUMPDEST, args := [], pc := 100 }],
    succs := [], preds := [0], has_unresolved_jump := false }

/-- Example block 2: the fallthrough block spanning pc 3 = final_pc + 1. -/
def exBlock2 : TACBasicBlock :=
  { entry := 3, exit := 3,
    tac_ops := [{ opcode := .other "STOP" true, args := [], pc := 3 }],
    succs := [], preds := [], has_unresolved_jump := false }

/-- The example graph for C1. -/
def exG : TACGraph := { blocks := [exBlock0, exBlock1, exBlock2] }

/-- C1 (counterexample).  Running hook_up_jumps with mutate_jumps on block 0
of exG deletes the JUMPI and marks the block resolved, but the successor set
afterwards is the two blocks 1 and 2, not only the fallthrough block 2: the
pre-existing edge to block 1 is not removed, refuting the claim as stated. -/
theorem C1_counterexample :
    (hook_up_jumps exG 0 true false).map
      (fun p => (p.1.blocks[0]?).map
        (fun b => (b.succs.toFinset, b.has_unresolved_jump, b.tac_ops))) =
      some (some ({1, 2}, false, [])) ∧
    ({1, 2} : Finset Nat) ≠ {2} := by
  constructor
  · decide
  · decide

/-- C1 (corrected).  With mutate_jumps enabled, on a block whose final op is
a JUMPI whose condition is false: hook_up_jumps deletes the JUMPI op and
marks the block resolved, but previously-present successor edges all remain
(the jumpdests map is empty in this branch, and old edges are removed only
when their entry is a jumpdests key); the blocks spanning final_pc + 1 are
added as successors unless one of them already is a successor, in which case
the successor set does not change at all.  Only if the old successor set was
empty or already within the fallthrough set is the fallthrough the only
successor. -/
theorem C1_hook_up_jumps_false_cond (g : TACGraph) (bid : Nat)
    (self : TACBasicBlock) (final_op : TACOp) (dest cond : Variable)
    (gen : Bool)
    (hbid : g.blocks[bid]? = some self)
    (hlast : self.tac_ops.getLast? = some final_op)
    (hop : final_op.opcode = .JUMPI)
    (h0 : final_op.args[0]? = some dest)
    (h1 : final_op.args[1]? = some cond)
    (hfalse : cond.is_false = true) :
    ∃ g3 m b3, hook_up_jumps g bid true gen = some (g3, m) ∧
      g3.blocks[bid]? = some b3 ∧
      b3.tac_ops = self.tac_ops.dropLast ∧
      b3.has_unresolved_jump = false ∧
      b3.succs.toFinset = self.succs.toFinset ∪
        (if (g.get_blocks_by_pc (final_op.pc + 1)).any
            (fun d => d ∈ self.succs) then ∅
         else (g.get_blocks_by_pc (final_op.pc + 1)).toFinset) := by
  have hres : resolve_final g self final_op true = some
      { tac_ops2 := self.tac_ops.dropLast
        final2 := final_op
        jumpdests := []
        fallthrough := g.get_blocks_by_pc (final_op.pc + 1)
        invalid_jump := false
        unresolved := false } := by
    unfold resolve_final
    rw [if_pos hop, h0, Option.some_bind, h1, Option.some_bind, hfalse]
    simp
  have hb1 := modifyBlock_getElem_self g bid
    (fun b => { b with tac_ops := self.tac_ops.dropLast,
                       has_unresolved_jump := false }) self hbid
  obtain ⟨b3, hget3, hsuccs3, hops3, hunres3⟩ := foldl_add_edge_at_head
    ((if ((g.get_blocks_by_pc (final_op.pc + 1)).filter
          (fun d => d ∈ self.succs)).length ≠ 0 then
        (g.get_blocks_by_pc (final_op.pc + 1)).filter (fun d => d ∈ self.succs)
      else g.get_blocks_by_pc (final_op.pc + 1)).dedup)
    (g.modifyBlock bid (fun b => { b with tac_ops := self.tac_ops.dropLast,
                                          has_unresolved_jump := false }))
    bid _ hb1
  obtain ⟨mv, hhook⟩ : ∃ m2, hook_up_jumps g bid true gen = some
      (((if ((g.get_blocks_by_pc (final_op.pc + 1)).filter
            (fun d => d ∈ self.succs)).length ≠ 0 then
          (g.get_blocks_by_pc (final_op.pc + 1)).filter
            (fun d => d ∈ self.succs)
        else g.get_blocks_by_pc (final_op.pc + 1)).dedup).foldl
          (fun gg s => gg.add_edge bid s)
          (g.modifyBlock bid (fun b =>
            { b with tac_ops := self.tac_ops.dropLast,
                     has_unresolved_jump := false })), m2) := by
    unfold hook_up_jumps
    rw [hbid, Option.some_bind, hlast, Option.some_bind, hres,
      Option.some_bind]
    simp only [Bool.and_false, Bool.false_eq_true, if_false, List.map_nil,
      List.flatten_nil, List.nil_append, List.contains_nil,
      List.filter_false, List.foldl_nil]
    exact ⟨_, rfl⟩
  refine ⟨_, mv, b3, hhook, hget3, by simpa using hops3,
    by simpa using hunres3, ?_⟩
  rw [hsuccs3]
  have hb1succs : ((fun b : TACBasicBlock =>
      { b with tac_ops := self.tac_ops.dropLast,
               has_unresolved_jump := false })
      self).succs = self.succs := rfl
  rw [hb1succs, dedup_toFinset]
  by_cases hta : ((g.get_blocks_by_pc (final_op.pc + 1)).filter
      (fun d => d ∈ self.succs)).length ≠ 0
  · rw [if_pos hta]
    have hne : (g.get_blocks_by_pc (final_op.pc + 1)).filter
        (fun d => d ∈ self.succs) ≠ [] := by
      intro hnil
      exact hta (by rw [hnil]; rfl)
    obtain ⟨x, hx⟩ := List.exists_mem_of_ne_nil _ hne
    have hmem := List.mem_filter.mp hx
    have hany : (g.get_blocks_by_pc (final_op.pc + 1)).any
        (fun d => d ∈ self.succs) = true := by
      rw [List.any_eq_true]
      exact ⟨x, hmem.1, hmem.2⟩
    rw [hany]
    simp only [if_true, eq_self_iff_true, Finset.union_empty]
    ext y
    simp only [Finset.mem_union, List.mem_toFinset]
    constructor
    · rintro (hy | hy)
      · exact hy
      · exact of_decide_eq_true (List.mem_filter.mp hy).2
    · exact fun hy => Or.inl hy
  · rw [if_neg hta]
    have hfilter : (g.get_blocks_by_pc (final_op.pc + 1)).filter
        (fun d => d ∈ self.succs) = [] := by
      rcases Nat.eq_zero_or_pos ((g.get_blocks_by_pc (final_op.pc + 1)).filter
        (fun d => d ∈ self.succs)).length with h2 | h2
      · exact List.length_eq_zero.mp h2
      · exact absurd (Nat.pos_iff_ne_zero.mp h2) (by simpa using hta)
    have hany : (g.get_blocks_by_pc (final_op.pc + 1)).any
        (fun d => d ∈ self.succs) = false := by
      rw [Bool.eq_false_iff]
      intro htrue
      obtain ⟨x, hx, hp⟩ := List.any_eq_true.mp htrue
      have hxf : x ∈ (g.get_blocks_by_pc (final_op.pc + 1)).filter
          (fun d => d ∈ self.succs) := List.mem_filter.mpr ⟨hx, hp⟩
      rw [hfilter] at hxf
      cases hxf
    rw [hany]
    simp

/-- Witness for C1 on the example graph: the corrected description applies
with no block spanning pc 3 among block 0's old successors, so both blocks
remain and block 2 is added. -/
theorem C1_witness :
    ∃ g3 m b3, hook_up_jumps exG 0 true false = some (g3, m) ∧
      g3.blocks[0]? = some b3 ∧
      b3.tac_ops = exBlock0.tac_ops.dropLast ∧
      b3.has_unresolved_jump = false ∧
      b3.succs.toFinset = exBlock0.succs.toFinset ∪
        (if (exG.get_blocks_by_pc (exJumpiOp.pc + 1)).any
            (fun d => d ∈ exBlock0.succs) then ∅
         else (exG.get_blocks_by_pc (exJumpiOp.pc + 1)).toFinset) :=
  C1_hook_up_jumps_false_cond exG 0 exBlock0 exJumpiOp destVar condVar false
    rfl rfl rfl rfl rfl (by decide)

/-! ## C5: fresh variables and def_sites -/

/-- C5 (code_bug).  Evaluating Destackifier.__new_var at the failing input
(a block with entry pc 0 allocating its first fresh variable): the call
raises TypeError — Variable.top has no def_sites keyword parameter and the
Variable carries no def_sites field — so no fresh Variable named V0 with
def_sites equal to the singleton of the entry pc is ever produced, contrary
to the claim. -/
theorem C5_new_var_type_error :
    Destackifier.new_var 0 0 = .error PyErr.typeError ∧
      kwargsAccepted topKeywordParams newVarKeywordArgs = false := by
  constructor
  · rfl
  · rfl

end MadMax
